import Mathlib

/-!
Verification of the adaptive concurrency-search core of the model-analyzer
repository.

The definitions below are a shallow embedding of the Python sources:
  * `src/model_analyzer/result/concurrency_search.py` (`ConcurrencySearch`),
  * `src/model_analyzer/config/generate/brute_plus_binary_parameter_search_run_config_generator.py`,
  * `src/model_analyzer/config/input/config_range_numeric.py`.

Python machine-level details are embedded as follows: a measurement that may
be absent (`Optional[RunConfigMeasurement]`, with `None` falsy) becomes
`Option Measurement`; Python exceptions become an explicit `Except PyError`;
generator/yield lockstep (the caller feeds one measurement after each yielded
configuration) becomes an oracle `feed : ℕ → Option Measurement` giving the
measurement supplied after the k-th emitted configuration; `int((a+b)/2)` on
non-negative integers becomes natural division.

Pieces of the repository that the selected source files use but which are not
themselves part of the provided sources (`RunConfigMeasurement`, the constants
module, `ConfigValue.set_value`) are modelled from the specification and are
marked `Modelled from the spec:` in their doc comments.
-/

namespace ModelAnalyzer

/-- Modelled from the spec: a `RunConfigMeasurement` reduced to the interface the
search consumes — a comparable scalar objective (throughput) and a
constraint-satisfaction predicate (`is_passing_constraints`).
`run_config_measurement.py` is not among the provided sources. -/
structure Measurement where
  throughput : ℚ
  passing : Bool
deriving DecidableEq

/-- Modelled from the spec: `RunConfigMeasurement.compare_measurements` returns the
normalized fractional gain of `other` over `self` — positive when `other` is
better.  `run_config_measurement.py` is not among the provided sources. -/
def compareMeasurements (self other : Measurement) : ℚ :=
  (other.throughput - self.throughput) / self.throughput

/-- Modelled from the spec: `THROUGHPUT_MINIMUM_GAIN` from the constants module
(not among the provided sources); the spec gives the default threshold 0.05. -/
def THROUGHPUT_MINIMUM_GAIN : ℚ := 1 / 20

/-- Modelled from the spec: `THROUGHPUT_MINIMUM_CONSECUTIVE_CONCURRENCY_TRIES`
from the constants module (not among the provided sources); the claims fix it
at 4. -/
def THROUGHPUT_MINIMUM_CONSECUTIVE_CONCURRENCY_TRIES : ℕ := 4

/-- Python exceptions that `ConcurrencySearch` can raise:
the explicit `TritonModelAnalyzerException` of `_check_measurement_count`,
the `NameError` that `_was_constraint_violated` hits when its fallback reads
the loop variable `i` of a loop that never ran, and an `IndexError` for an
out-of-range list subscript. -/
inductive PyError where
  | tritonModelAnalyzerException
  | nameError
  | indexError
deriving DecidableEq

/-- The mutable state of a `ConcurrencySearch` instance: the fed-back
measurement list, the emitted concurrency list, and the two binary-search
bounds (both initialised to 0). -/
structure SearchState where
  run_config_measurements : List (Option Measurement)
  concurrencies : List ℕ
  last_failing_concurrency : ℕ
  last_passing_concurrency : ℕ
deriving DecidableEq

/-- The last `THROUGHPUT_MINIMUM_CONSECUTIVE_CONCURRENCY_TRIES` fed-back
measurements, Python's `self._run_config_measurements[-TRIES:]`. -/
def lastWindow (ms : List (Option Measurement)) : List (Option Measurement) :=
  ms.drop (ms.length - THROUGHPUT_MINIMUM_CONSECUTIVE_CONCURRENCY_TRIES)

/-- Python's `max` over a list of measurements: fold that replaces the current
best only on a strictly better element (so the first of equal elements is
kept); `none` on the empty list.  The order itself is
modelled from the spec: measurements carry "a total order against other
measurements", reduced here to the throughput objective. -/
def maxRcm : List Measurement → Option Measurement
  | [] => none
  | x :: xs => some (xs.foldl (fun acc m => if acc.throughput < m.throughput then m else acc) x)

/-- Embeds `ConcurrencySearch._get_best_rcm`: prune the absent entries from the last
`TRIES` measurements and take the maximum, `none` if nothing remains. -/
def get_best_rcm (ms : List (Option Measurement)) : Option Measurement :=
  maxRcm ((lastWindow ms).filterMap id)

/-- The branch structure of `ConcurrencySearch._calculate_gain` on the two
locals `first_rcm` and `best_rcm`: both absent → 0, only the older absent → 1,
only the newer absent → −1, otherwise `first_rcm.compare_measurements(best_rcm)`. -/
def calculate_gain_aux (first_rcm best_rcm : Option Measurement) : ℚ :=
  match first_rcm, best_rcm with
  | none, none => 0
  | none, some _ => 1
  | some _, none => -1
  | some f, some b => compareMeasurements f b

/-- Embeds `ConcurrencySearch._calculate_gain`: `first_rcm` is
`self._run_config_measurements[-TRIES]` (only evaluated once at least `TRIES`
measurements exist), `best_rcm` is `self._get_best_rcm()`. -/
def calculate_gain (ms : List (Option Measurement)) : ℚ :=
  calculate_gain_aux
    (ms.getD (ms.length - THROUGHPUT_MINIMUM_CONSECUTIVE_CONCURRENCY_TRIES) none)
    (get_best_rcm ms)

/-- Embeds `ConcurrencySearch._has_objective_gain_saturated`: the gain fell strictly
below `THROUGHPUT_MINIMUM_GAIN`. -/
def has_objective_gain_saturated (ms : List (Option Measurement)) : Bool :=
  decide (calculate_gain ms < THROUGHPUT_MINIMUM_GAIN)

/-- Embeds `ConcurrencySearch._are_minimum_tries_reached`. -/
def are_minimum_tries_reached (ms : List (Option Measurement)) : Bool :=
  decide (THROUGHPUT_MINIMUM_CONSECUTIVE_CONCURRENCY_TRIES ≤ ms.length)

/-- Embeds `ConcurrencySearch._should_continue_concurrency_sweep`, with the raise of
`_check_measurement_count` made explicit: a measurement count differing from
the emitted-concurrency count raises `TritonModelAnalyzerException`; below the
minimum number of tries the sweep continues unconditionally; otherwise it
continues iff the gain has not saturated. -/
def should_continue_concurrency_sweep (s : SearchState) : Except PyError Bool :=
  if s.run_config_measurements.length ≠ s.concurrencies.length then
    .error .tritonModelAnalyzerException
  else if ¬ are_minimum_tries_reached s.run_config_measurements then
    .ok true
  else
    .ok (! has_objective_gain_saturated s.run_config_measurements)

/-- Embeds `ConcurrencySearch._perform_concurrency_sweep` driven in lockstep: for the
remaining exponent list, check `_should_continue_concurrency_sweep`, and on
`true` append and emit `2^e` and append the caller's fed-back measurement
`feed k` for it (the caller adds the measurement right after each yield, so it
is present before the next check).  Returns the emitted concurrencies, the
final state and the next feed index. -/
def sweepFrom (feed : ℕ → Option Measurement) :
    List ℕ → SearchState → ℕ → Except PyError (List ℕ × SearchState × ℕ)
  | [], s, k => .ok ([], s, k)
  | e :: rest, s, k =>
    match should_continue_concurrency_sweep s with
    | .error err => .error err
    | .ok false => .ok ([], s, k)
    | .ok true =>
      let c := 2 ^ e
      let s' : SearchState :=
        { s with concurrencies := s.concurrencies ++ [c],
                 run_config_measurements := s.run_config_measurements ++ [feed k] }
      match sweepFrom feed rest s' (k + 1) with
      | .error err => .error err
      | .ok (out, s'', k') => .ok (c :: out, s'', k')

/-- Embeds `ConcurrencySearch._at_constraint_failure_boundary`: false if either of the
measurements at `index` and `index - 1` is absent, true iff the one at `index`
fails its constraints while the one at `index - 1` passes. -/
def at_constraint_failure_boundary (ms : List (Option Measurement)) (index : ℕ) : Bool :=
  match ms.getD index none, ms.getD (index - 1) none with
  | some a, some b => ! a.passing && b.passing
  | _, _ => false

/-- The backward scan of `ConcurrencySearch._was_constraint_violated`:
Python's `range(len(ms) - 1, 1, -1)` visits `len-1, …, 2`, and the first index
at a constraint-failure boundary wins. -/
def findBoundaryIndex (ms : List (Option Measurement)) : Option ℕ :=
  ((List.range' 2 (ms.length - 2)).reverse).find? (fun i => at_constraint_failure_boundary ms i)

/-- Embeds `ConcurrencySearch._was_constraint_violated`.  On a found boundary index
`i`, record `concurrencies[i]` / `concurrencies[i-1]` as failing/passing bound.
Otherwise, if the first measurement is present and failing, the fallback reads
the leaked loop variable `i`, which after an exhausted scan equals 2 — and is
unbound (`NameError`) when the history is shorter than 3 so the loop never ran.
An empty history would subscript `ms[0]` out of range (`IndexError`). -/
def was_constraint_violated (s : SearchState) : Except PyError (Bool × SearchState) :=
  match findBoundaryIndex s.run_config_measurements with
  | some i =>
    .ok (true, { s with last_failing_concurrency := s.concurrencies.getD i 0,
                        last_passing_concurrency := s.concurrencies.getD (i - 1) 0 })
  | none =>
    match s.run_config_measurements.head? with
    | none => .error .indexError
    | some none => .ok (false, s)
    | some (some m) =>
      if m.passing then
        .ok (false, s)
      else if 3 ≤ s.run_config_measurements.length then
        .ok (true, { s with last_failing_concurrency := s.concurrencies.getD 2 0,
                            last_passing_concurrency := 0 })
      else
        .error .nameError

/-- Embeds `ConcurrencySearch._determine_next_binary_concurrency`: an absent latest
measurement yields the sentinel 0 without touching the bounds; a passing one
updates the passing bound to the latest concurrency and halves towards the
failing bound; a failing one symmetrically.  `int((a+b)/2)` on non-negative
integers is natural division. -/
def determine_next_binary_concurrency (s : SearchState) : ℕ × SearchState :=
  match s.run_config_measurements.getLast? with
  | some (some m) =>
    let last := s.concurrencies.getLastD 0
    if m.passing then
      ((s.last_failing_concurrency + last) / 2, { s with last_passing_concurrency := last })
    else
      ((s.last_passing_concurrency + last) / 2, { s with last_failing_concurrency := last })
  | _ => (0, s)

/-- The loop body of `ConcurrencySearch._perform_binary_concurrency_search`
driven in lockstep: for up to `steps` iterations compute the next candidate;
if it differs from the last appended concurrency, append and emit it together
with its fed-back measurement, otherwise iterate without emitting. -/
def binaryAux (feed : ℕ → Option Measurement) :
    ℕ → SearchState → ℕ → List ℕ × SearchState
  | 0, s, _ => ([], s)
  | n + 1, s, k =>
    let (c, s') := determine_next_binary_concurrency s
    if c ≠ s'.concurrencies.getLastD 0 then
      let s'' : SearchState :=
        { s' with concurrencies := s'.concurrencies ++ [c],
                  run_config_measurements := s'.run_config_measurements ++ [feed k] }
      let r := binaryAux feed n s'' (k + 1)
      (c :: r.1, r.2)
    else
      binaryAux feed n s' k

/-- Embeds `ConcurrencySearch.search_concurrencies` driven in lockstep by the oracle
`feed`: sweep `2^i` for `i = min_concurrency_index … max_concurrency_index`,
then, if a constraint violation boundary was found, append the failing
concurrency as a synthetic (non-emitted) anchor and run the binary phase.
Returns the full list of emitted concurrencies, or the Python exception. -/
def search_concurrencies (min_concurrency_index max_concurrency_index
    max_binary_search_steps : ℕ) (feed : ℕ → Option Measurement) :
    Except PyError (List ℕ) :=
  let exps := List.range' min_concurrency_index
    (max_concurrency_index + 1 - min_concurrency_index)
  match sweepFrom feed exps ⟨[], [], 0, 0⟩ 0 with
  | .error e => .error e
  | .ok (out1, s1, k) =>
    match was_constraint_violated s1 with
    | .error e => .error e
    | .ok (false, _) => .ok out1
    | .ok (true, s2) =>
      let s3 : SearchState :=
        { s2 with concurrencies := s2.concurrencies ++ [s2.last_failing_concurrency] }
      .ok (out1 ++ (binaryAux feed max_binary_search_steps s3 k).1)

/-- The emitted configurations of a full `search_concurrencies` run (empty when
the run raises). -/
def emittedConfigs (min_concurrency_index max_concurrency_index
    max_binary_search_steps : ℕ) (feed : ℕ → Option Measurement) : List ℕ :=
  match search_concurrencies min_concurrency_index max_concurrency_index
      max_binary_search_steps feed with
  | .ok out => out
  | .error _ => []

/-- A profiled model as seen by
`BrutePlusBinaryParameterSearchRunConfigGenerator`: only its
`model_config_parameters()` matter (Python truthiness: a non-empty parameter
grid pins an explicit configuration). -/
structure ModelProfileSpec where
  model_config_parameters : List String

/-- Embeds `BrutePlusBinaryParameterSearchRunConfigGenerator._is_automatic_search_mode`:
loop over the models, return `False` on the first one whose
`model_config_parameters()` is truthy, else `True`. -/
def is_automatic_search_mode (models : List ModelProfileSpec) : Bool :=
  models.all fun model => model.model_config_parameters.isEmpty

/-- Embeds `BrutePlusBinaryParameterSearchRunConfigGenerator.get_configs`: first yield
everything from the brute sub-generator, then — only in automatic search
mode — everything from `_binary_search_over_top_results`.  The two
sub-generators (`BruteRunConfigGenerator` and the top-N concurrency sweeps,
whose classes are external to the provided sources) are abstracted as the
configuration lists they produce. -/
def get_configs (models : List ModelProfileSpec)
    (brute_configs top_result_sweep_configs : List ℕ) : List ℕ :=
  brute_configs ++
    (if is_automatic_search_mode models then top_result_sweep_configs else [])

/-- A Python value as fed to `ConfigRangeNumeric.set_value`: a string, an
integer scalar, a mapping, or a list. -/
inductive PyVal where
  | str (s : String)
  | num (n : Int)
  | dict (entries : List (String × PyVal))
  | list (elems : List PyVal)

/-- The `ConfigStatus` result of `set_value`: `CONFIG_PARSER_SUCCESS` carrying
the stored value, or `CONFIG_PARSER_FAILURE` carrying the message. -/
inductive ConfigStatus where
  | success (value : List PyVal)
  | failure (msg : String)

/-- Python `int(x)` as used by `ConfigRangeNumeric.set_value` with `type_ =
int`: an integer stays itself, a numeric string is parsed, anything
unconvertible raises `ValueError` (modelled as `none`, caught by the
surrounding `except ValueError`). -/
def int_of : PyVal → Option Int
  | .num n => some n
  | .str s => s.toInt?
  | _ => none

/-- Modelled from the spec: `ConfigValue.set_value` (the base class lives in
`config_value.py`, not among the provided sources) runs the field's
validator — the default validator of `ConfigRangeNumeric` accepts any list —
stores the value and returns a success status. -/
def configvalue_set_value (new_value : List PyVal) : ConfigStatus :=
  .success new_value

/-- Embeds `ConfigRangeNumeric.set_value`.  A string must contain a colon and split
into 2 or 3 segments, and is rewritten into a `start`/`stop`/`step` mapping
(step defaulting to 1); a mapping must have exactly the keys
`start`/`stop`(/`step`), its fields are converted with `int` (conversion
failure → `ValueError`, caught and reported as a failure status), `start`
must not exceed `stop`, and the normalized value is the single-element list
`["start:stop:step"]`; a list passes through unchanged; any other scalar is
converted with `int`.  All failures are returned as a failure `ConfigStatus`,
never raised. -/
def set_value (value : PyVal) : ConfigStatus :=
  let stage1 : Except ConfigStatus PyVal :=
    match value with
    | .str s =>
      if ! s.contains ':' then
        .error (.failure "When a string is used, it must be in the format start:stop:step.")
      else
        match s.splitOn ":" with
        | [v0, v1] => .ok (.dict [("start", .str v0), ("stop", .str v1), ("step", .num 1)])
        | [v0, v1, v2] => .ok (.dict [("start", .str v0), ("stop", .str v1), ("step", .str v2)])
        | _ => .error (.failure "When a string is used, it must be in the format start:stop:step.")
    | v => .ok v
  match stage1 with
  | .error st => st
  | .ok (.dict entries) =>
    if (entries.length == 2 && (entries.lookup "start").isSome
          && (entries.lookup "stop").isSome) ||
       (entries.length == 3 && (entries.lookup "start").isSome
          && (entries.lookup "stop").isSome && (entries.lookup "step").isSome) then
      match (entries.lookup "start").bind int_of, (entries.lookup "stop").bind int_of,
            (match entries.lookup "step" with | none => some 1 | some v => int_of v) with
      | some start, some stop, some step =>
        if start > stop then
          .failure "start should be less than stop."
        else
          configvalue_set_value
            [.str (toString start ++ ":" ++ toString stop ++ ":" ++ toString step)]
      | _, _, _ => .failure "Failed to set the value: ValueError."
    else
      .failure "A dictionary should only contain start and stop keys with an optional step key."
  | .ok (.list elems) => configvalue_set_value elems
  | .ok v =>
    match int_of v with
    | some n => configvalue_set_value [.num n]
    | none => .failure "Failed to set the value: ValueError."

/-- Is a `ConfigStatus` a validation failure? -/
def ConfigStatus.failed : ConfigStatus → Bool
  | .failure _ => true
  | .success _ => false

/-- The feedback of claim C1: passing measurements with throughputs
1, 2, 4, 4 for the four sweep proposals (and throughput 4 for any further
proposal). -/
def feedC1 : ℕ → Option Measurement :=
  fun k => some ⟨([1, 2, 4, 4, 4] : List ℚ).getD k 0, true⟩

/-- The measurement history 50, 50, 50, 52.5 of claim C3, all passing. -/
def ms50a : List (Option Measurement) :=
  [some ⟨50, true⟩, some ⟨50, true⟩, some ⟨50, true⟩, some ⟨105 / 2, true⟩]

/-- The measurement history 50, 50, 50, 52.51 of claim C3, all passing. -/
def ms50b : List (Option Measurement) :=
  [some ⟨50, true⟩, some ⟨50, true⟩, some ⟨50, true⟩, some ⟨5251 / 100, true⟩]

/-- Feedback delivering the claim C3 history 50, 50, 50, 52.5 (and 52.5 for
any further proposal), all passing. -/
def feed50a : ℕ → Option Measurement :=
  fun k => some ⟨(ms50a.getD k none).elim 0 Measurement.throughput, true⟩

/-- Feedback delivering the claim C3 history 50, 50, 50, 52.51 (and 52.51 for
any further proposal), all passing. -/
def feed50b : ℕ → Option Measurement :=
  fun k => some ⟨(ms50b.getD k none).elim 0 Measurement.throughput, true⟩

/-- A two-entry sweep history whose first measurement passes and whose second
fails its constraints, at concurrencies 1 and 2: the boundary sits at
position 1. -/
def stateBoundaryAt1 : SearchState :=
  ⟨[some ⟨10, true⟩, some ⟨10, false⟩], [1, 2], 0, 0⟩

/-- A three-entry sweep history with the constraint-failure boundary at
position 2 (pass, pass, fail) at concurrencies 1, 2, 4. -/
def stateBoundaryAt2 : SearchState :=
  ⟨[some ⟨10, true⟩, some ⟨10, true⟩, some ⟨10, false⟩], [1, 2, 4], 0, 0⟩

/-- A four-entry sweep history in which every measurement is present and fails
its constraints, at concurrencies 1, 2, 4, 8: no interior boundary exists and
the very first measurement fails. -/
def stateAllFail : SearchState :=
  ⟨[some ⟨10, false⟩, some ⟨10, false⟩, some ⟨10, false⟩, some ⟨10, false⟩],
   [1, 2, 4, 8], 0, 0⟩

/-- A two-entry sweep history in which both measurements fail, at
concurrencies 1 and 2. -/
def stateTwoFail : SearchState :=
  ⟨[some ⟨10, false⟩, some ⟨10, false⟩], [1, 2], 0, 0⟩

/-- A state whose measurement count (1) differs from its emitted-concurrency
count (0). -/
def stateMismatch : SearchState := ⟨[none], [], 0, 0⟩

end ModelAnalyzer

namespace ModelAnalyzer

/-- The fold inside `maxRcm` dominates its seed and every list element. -/
theorem foldl_maxRcm_le (xs : List Measurement) :
    ∀ x : Measurement, ∀ m ∈ x :: xs,
      m.throughput ≤
        (xs.foldl (fun acc n => if acc.throughput < n.throughput then n else acc) x).throughput := by
  induction xs with
  | nil =>
    intro x m hm
    rcases List.mem_cons.mp hm with rfl | hm'
    · exact le_refl _
    · cases hm'
  | cons y ys ih =>
    intro x m hm
    have hstep : x.throughput ≤
        (if x.throughput < y.throughput then y else x).throughput ∧
        y.throughput ≤ (if x.throughput < y.throughput then y else x).throughput := by
      by_cases hxy : x.throughput < y.throughput
      · simp [hxy, le_of_lt hxy]
      · simp [hxy, le_of_not_lt hxy]
    rcases List.mem_cons.mp hm with rfl | hm'
    · exact le_trans hstep.1 (ih _ _ (List.mem_cons_self _ _))
    · rcases List.mem_cons.mp hm' with rfl | hm''
      · exact le_trans hstep.2 (ih _ _ (List.mem_cons_self _ _))
      · exact ih _ m (List.mem_cons_of_mem _ hm'')

/-- If `maxRcm` returns a best element, it dominates every list element. -/
theorem maxRcm_le {l : List Measurement} {b : Measurement} (h : maxRcm l = some b) :
    ∀ m ∈ l, m.throughput ≤ b.throughput := by
  cases l with
  | nil => cases h
  | cons x xs =>
    intro m hm
    have hb : (xs.foldl (fun acc n => if acc.throughput < n.throughput then n else acc) x) = b := by
      simpa [maxRcm] using h
    simpa [hb] using foldl_maxRcm_le xs x m hm

/-- The function `maxRcm` returns nothing exactly on the empty list. -/
theorem maxRcm_eq_none {l : List Measurement} : maxRcm l = none ↔ l = [] := by
  cases l <;> simp [maxRcm]

/-- Pruning with `filterMap id` yields nothing exactly when every entry is absent. -/
theorem filterMap_id_eq_nil {α : Type} {l : List (Option α)} :
    l.filterMap id = [] ↔ ∀ x ∈ l, x = none := by
  constructor
  · intro h x hx
    cases hxv : x with
    | none => rfl
    | some v =>
      have : v ∈ l.filterMap id := List.mem_filterMap.mpr ⟨x, hx, by simp [hxv]⟩
      simp [h] at this
  · intro h
    apply List.eq_nil_iff_forall_not_mem.mpr
    intro v hv
    obtain ⟨x, hx, hxe⟩ := List.mem_filterMap.mp hv
    have := h x hx
    simp [this] at hxe

/-- A constraint-failure boundary can only sit at an index inside the history:
past the end the subscript would be absent and the pair is skipped. -/
theorem at_boundary_out_of_range (ms : List (Option Measurement)) (j : ℕ)
    (h : ms.length ≤ j) : at_constraint_failure_boundary ms j = false := by
  unfold at_constraint_failure_boundary
  rw [List.getD_eq_default _ _ h]

/-- On a strictly descending list, `find?` returns the element `i` whenever `i`
is in the list, satisfies the predicate, and everything larger fails it. -/
theorem find?_pairwise_gt {p : ℕ → Bool} {i : ℕ} (hp : p i = true)
    (hgt : ∀ j, i < j → p j = false) :
    ∀ l : List ℕ, l.Pairwise (· > ·) → i ∈ l → l.find? p = some i := by
  intro l
  induction l with
  | nil => intro _ hm; cases hm
  | cons a t ih =>
    intro hpw hm
    rcases List.mem_cons.mp hm with rfl | hm'
    · exact List.find?_cons_of_pos _ hp
    · have hat : a > i := (List.pairwise_cons.mp hpw).1 i hm'
      rw [List.find?_cons_of_neg _ (by simp [hgt a hat])]
      exact ih (List.pairwise_cons.mp hpw).2 hm'

/-- The backward scan of `_was_constraint_violated` finds exactly the most
recent boundary: if index `i ≥ 2` is a boundary inside the history and no
larger index is, the scan returns `i`. -/
theorem findBoundaryIndex_eq_some (ms : List (Option Measurement)) (i : ℕ)
    (h2 : 2 ≤ i) (hi : i < ms.length)
    (hb : at_constraint_failure_boundary ms i = true)
    (hafter : ∀ j, i < j → at_constraint_failure_boundary ms j = false) :
    findBoundaryIndex ms = some i := by
  unfold findBoundaryIndex
  apply find?_pairwise_gt hb hafter
  · exact List.pairwise_reverse.mpr (List.pairwise_lt_range' 2 (ms.length - 2))
  · rw [List.mem_reverse, List.mem_range'_1]
    omega

end ModelAnalyzer

namespace ModelAnalyzer

/-- The sweep phase emits at most one configuration per exponent in range. -/
theorem sweepFrom_length (feed : ℕ → Option Measurement) (exps : List ℕ) :
    ∀ s k out s' k', sweepFrom feed exps s k = .ok (out, s', k') →
      out.length ≤ exps.length := by
  induction exps with
  | nil =>
    intro s k out s' k' h
    simp only [sweepFrom] at h
    obtain ⟨h1, -⟩ := Prod.mk.injEq .. ▸ (Except.ok.injEq .. ▸ h)
    simp [← h1]
  | cons e rest ih =>
    intro s k out s' k' h
    simp only [sweepFrom] at h
    split at h
    · cases h
    · next =>
      obtain ⟨h1, -⟩ := Prod.mk.injEq .. ▸ (Except.ok.injEq .. ▸ h)
      simp [← h1]
    · next =>
      split at h
      · cases h
      · next out1 s1 k1 heq =>
        obtain ⟨h1, -⟩ := Prod.mk.injEq .. ▸ (Except.ok.injEq .. ▸ h)
        have := ih _ _ _ _ _ heq
        simp [← h1]
        omega

/-- The binary phase emits at most one configuration per step. -/
theorem binaryAux_length (feed : ℕ → Option Measurement) :
    ∀ (n : ℕ) (s : SearchState) (k : ℕ), (binaryAux feed n s k).1.length ≤ n := by
  intro n
  induction n with
  | zero => intro s k; simp [binaryAux]
  | succ m ih =>
    intro s k
    simp only [binaryAux]
    split
    · simpa using Nat.succ_le_succ (ih _ _)
    · exact le_trans (ih _ _) (Nat.le_succ m)

end ModelAnalyzer

namespace ModelAnalyzer

/-- C1 (counterexample): with min exponent 0, max exponent 4 and passing
throughputs 1, 2, 4, 4 fed back for the proposals 1, 2, 4, 8, the sweep does
NOT stop before 16: the gain over the plateau window is (4−1)/1 = 3 ≥ 0.05,
so 16 is emitted and the total number of proposals is 5, not 4 as claimed. -/
theorem c1_counterexample :
    (emittedConfigs 0 4 5 feedC1).length = 5 ∧ 16 ∈ emittedConfigs 0 4 5 feedC1 := by
  have h : emittedConfigs 0 4 5 feedC1 = [1, 2, 4, 8, 16] := by with_unfolding_all rfl
  rw [h]
  exact ⟨rfl, by decide⟩

/-- C1 (amended): with min exponent 0, max exponent 4 and passing throughputs
1, 2, 4, 4 fed back for the proposals 1, 2, 4, 8, the sweep emits all five
powers of two 1, 2, 4, 8, 16 (the window gain 3 is not saturated), the
binary-search phase is never entered (every measurement passes its
constraints), and the total number of emitted configurations is 5. -/
theorem c1_theorem : search_concurrencies 0 4 5 feedC1 = .ok [1, 2, 4, 8, 16] := by
  with_unfolding_all rfl

/-- C2 (counterexample): a history whose measurement at position 1 fails while
position 0 passed is an adjacent passing/failing pair at i = 1, yet the
backward scan (`range(len-1, 1, -1)` stops at index 2) misses it and the
fallback sees a passing first measurement, so no violation is reported and the
binary-search phase is not entered. -/
theorem c2_counterexample :
    at_constraint_failure_boundary stateBoundaryAt1.run_config_measurements 1 = true ∧
    was_constraint_violated stateBoundaryAt1 = .ok (false, stateBoundaryAt1) := by
  constructor
  · rfl
  · rfl

/-- C2 (amended): for every position i ≥ 2 in the fed-back history such that
the measurement at i fails its constraint, the one at i−1 passes, and no later
adjacent passing/failing pair exists (pairs with an absent measurement are
skipped), the boundary detection reports a violation with
`last_failing_concurrency` the emitted configuration at position i and
`last_passing_concurrency` the one at position i−1 — these are exactly the
bounds the binary-search phase of `search_concurrencies` is entered with.
At i = 1 the scan misses the pair (`c2_counterexample`). -/
theorem c2_theorem (s : SearchState) (i : ℕ)
    (_hlock : s.concurrencies.length = s.run_config_measurements.length)
    (h2 : 2 ≤ i) (hi : i < s.run_config_measurements.length)
    (hb : at_constraint_failure_boundary s.run_config_measurements i = true)
    (hafter : ∀ j, i < j → j < s.run_config_measurements.length →
      at_constraint_failure_boundary s.run_config_measurements j = false) :
    was_constraint_violated s =
      .ok (true, { s with last_failing_concurrency := s.concurrencies.getD i 0,
                          last_passing_concurrency := s.concurrencies.getD (i - 1) 0 }) := by
  have hall : ∀ j, i < j → at_constraint_failure_boundary s.run_config_measurements j = false := by
    intro j hj
    by_cases hjl : j < s.run_config_measurements.length
    · exact hafter j hj hjl
    · exact at_boundary_out_of_range _ _ (by omega)
  unfold was_constraint_violated
  rw [findBoundaryIndex_eq_some _ i h2 hi hb hall]

/-- C2 (witness): `c2_theorem` applied to the concrete three-entry history
pass, pass, fail at concurrencies 1, 2, 4: the violation is reported with
failing bound 4 (= configs[2]) and passing bound 2 (= configs[1]). -/
theorem c2_witness :
    was_constraint_violated stateBoundaryAt2 =
      .ok (true, ⟨stateBoundaryAt2.run_config_measurements, [1, 2, 4], 4, 2⟩) := by
  have hafter : ∀ j, 2 < j → j < stateBoundaryAt2.run_config_measurements.length →
      at_constraint_failure_boundary stateBoundaryAt2.run_config_measurements j = false := by
    intro j h1 h2
    have h3 : stateBoundaryAt2.run_config_measurements.length = 3 := rfl
    exact absurd h2 (by omega)
  have h := c2_theorem stateBoundaryAt2 2 rfl (by norm_num)
    (by simp [stateBoundaryAt2]) rfl hafter
  simpa using h

/-- C3 (counterexample): after the fed-back passing history
50, 50, 50, 52.5 — a gain of exactly (52.5−50)/50 = 0.05 — the sweep DOES
continue: saturation requires the gain to fall strictly below
`THROUGHPUT_MINIMUM_GAIN`, and 0.05 < 0.05 is false, so the claimed
"does not continue" fails. -/
theorem c3_counterexample :
    should_continue_concurrency_sweep ⟨ms50a, [1, 2, 4, 8], 0, 0⟩ = .ok true := by
  with_unfolding_all rfl

/-- C3 (amended): with MIN_CONSECUTIVE_TRIES = 4 and MIN_GAIN = 0.05, the
sweep continues after the history 50, 50, 50, 52.5 (gain exactly 0.05, not
strictly below the threshold) just as it continues after 50, 50, 50, 52.51
(gain 0.0502): both runs emit the next power of two, 16. -/
theorem c3_theorem :
    search_concurrencies 0 4 5 feed50a = .ok [1, 2, 4, 8, 16] ∧
    search_concurrencies 0 4 5 feed50b = .ok [1, 2, 4, 8, 16] :=
  ⟨by with_unfolding_all rfl, by with_unfolding_all rfl⟩

/-- C4 (code evaluated at the failing input): for the four-entry history in
which every measurement fails (no interior boundary, first measurement
failing), the fallback of `_was_constraint_violated` sets the passing floor to
0 as specified but sets `last_failing_concurrency` to `concurrencies[2] = 4`
(the leaked terminal loop index), not to the first emitted configuration 1;
and for the analogous two-entry history the loop never runs, so the fallback
reads an unbound loop variable (`NameError`). -/
theorem c4_theorem :
    was_constraint_violated stateAllFail =
      .ok (true, ⟨stateAllFail.run_config_measurements, [1, 2, 4, 8], 4, 0⟩) ∧
    was_constraint_violated stateTwoFail = .error .nameError := ⟨rfl, rfl⟩

/-- C5: whenever the number of fed-back measurements differs from the number
of emitted configurations at a sweep continuation decision, the search raises
`TritonModelAnalyzerException` immediately, and a sweep resumed from such a
state emits no further configuration (the error carries no proposals). -/
theorem c5_theorem (s : SearchState)
    (h : s.run_config_measurements.length ≠ s.concurrencies.length) :
    should_continue_concurrency_sweep s = .error .tritonModelAnalyzerException ∧
    ∀ (feed : ℕ → Option Measurement) (e : ℕ) (rest : List ℕ) (k : ℕ),
      sweepFrom feed (e :: rest) s k = .error .tritonModelAnalyzerException := by
  have h1 : should_continue_concurrency_sweep s = .error .tritonModelAnalyzerException := by
    unfold should_continue_concurrency_sweep
    rw [if_pos h]
  refine ⟨h1, fun feed e rest k => ?_⟩
  simp [sweepFrom, h1]

/-- C5 (witness): `c5_theorem` at the concrete state with one fed-back
measurement and no emitted configuration. -/
theorem c5_witness :
    should_continue_concurrency_sweep stateMismatch = .error .tritonModelAnalyzerException ∧
    sweepFrom (fun _ => none) [0] stateMismatch 0 = .error .tritonModelAnalyzerException :=
  ⟨(c5_theorem stateMismatch (by simp [stateMismatch])).1,
   (c5_theorem stateMismatch (by simp [stateMismatch])).2 (fun _ => none) 0 [] 0⟩

/-- C6: over any run of the search (any lockstep feedback), the total number
of emitted configurations — sweep plus binary phase — never exceeds
(maxIndex − minIndex + 1) + maxBinarySteps + 1. -/
theorem c6_theorem (min_idx max_idx steps : ℕ) (feed : ℕ → Option Measurement) :
    (emittedConfigs min_idx max_idx steps feed).length ≤
      (max_idx - min_idx + 1) + steps + 1 := by
  have key : ∀ out, search_concurrencies min_idx max_idx steps feed = .ok out →
      out.length ≤ (max_idx - min_idx + 1) + steps + 1 := by
    intro out h
    simp only [search_concurrencies] at h
    cases hsw : sweepFrom feed (List.range' min_idx (max_idx + 1 - min_idx)) ⟨[], [], 0, 0⟩ 0 with
    | error e => rw [hsw] at h; cases h
    | ok t =>
      rw [hsw] at h
      obtain ⟨out1, s1, k⟩ := t
      replace h : (match was_constraint_violated s1 with
        | Except.error e => Except.error e
        | Except.ok (false, _) => Except.ok out1
        | Except.ok (true, s2) =>
          Except.ok (out1 ++ (binaryAux feed steps
            { s2 with concurrencies := s2.concurrencies ++ [s2.last_failing_concurrency] }
            k).1)) = Except.ok (ε := PyError) out := h
      have hlen1 : out1.length ≤ max_idx + 1 - min_idx := by
        have h2 := sweepFrom_length feed _ _ _ _ _ _ hsw
        simpa using h2
      cases hv : was_constraint_violated s1 with
      | error e => rw [hv] at h; cases h
      | ok p =>
        rw [hv] at h
        obtain ⟨b, s2⟩ := p
        cases b with
        | false =>
          have h' : Except.ok (ε := PyError) out1 = Except.ok out := h
          injection h' with h''
          subst h''
          omega
        | true =>
          have h' : Except.ok (ε := PyError) (out1 ++ (binaryAux feed steps
              { s2 with concurrencies := s2.concurrencies ++ [s2.last_failing_concurrency] }
              k).1) = Except.ok out := h
          have hb := binaryAux_length feed steps
            { s2 with concurrencies := s2.concurrencies ++ [s2.last_failing_concurrency] } k
          injection h' with h''
          rw [← h'']
          simp only [List.length_append]
          omega
  unfold emittedConfigs
  split
  · next out heq => exact key out heq
  · next => simp

/-- C7: the gain computation's explicit fallbacks — both endpoints absent
→ gain 0 (below the threshold: stop), only the older endpoint absent → gain 1
(not below the threshold: continue), only the newer endpoint absent → gain −1
(below the threshold: stop) — and the best-of-last-N selection, which ignores
absent entries: it yields nothing exactly when all entries of the window are
absent, and a returned best dominates every present entry of the window. -/
theorem c7_theorem :
    (calculate_gain_aux none none = 0 ∧
      calculate_gain_aux none none < THROUGHPUT_MINIMUM_GAIN) ∧
    (∀ m : Measurement, calculate_gain_aux none (some m) = 1 ∧
      ¬ calculate_gain_aux none (some m) < THROUGHPUT_MINIMUM_GAIN) ∧
    (∀ m : Measurement, calculate_gain_aux (some m) none = -1 ∧
      calculate_gain_aux (some m) none < THROUGHPUT_MINIMUM_GAIN) ∧
    (∀ ms : List (Option Measurement),
      (get_best_rcm ms = none ↔ ∀ x ∈ lastWindow ms, x = none)) ∧
    (∀ (ms : List (Option Measurement)) (b : Measurement), get_best_rcm ms = some b →
      ∀ m ∈ (lastWindow ms).filterMap id, m.throughput ≤ b.throughput) := by
  refine ⟨⟨rfl, by norm_num [calculate_gain_aux, THROUGHPUT_MINIMUM_GAIN]⟩,
    fun m => ⟨rfl, by norm_num [calculate_gain_aux, THROUGHPUT_MINIMUM_GAIN]⟩,
    fun m => ⟨rfl, by norm_num [calculate_gain_aux, THROUGHPUT_MINIMUM_GAIN]⟩,
    fun ms => ?_, fun ms b h m hm => ?_⟩
  · rw [get_best_rcm, maxRcm_eq_none, filterMap_id_eq_nil]
  · exact maxRcm_le (by simpa [get_best_rcm] using h) m hm

/-- C8: in the brute-plus orchestrating generator, the brute (phase 1)
configurations form exactly the leading segment of the output — so every
phase-1 configuration is yielded before any phase-2 configuration — and the
phase-2 refinement segment is appended if and only if no profiled model
specifies explicit `model_config_parameters` (automatic search mode). -/
theorem c8_theorem (models : List ModelProfileSpec)
    (brute_configs top_result_sweep_configs : List ℕ) :
    (get_configs models brute_configs top_result_sweep_configs).take
        brute_configs.length = brute_configs ∧
    ((get_configs models brute_configs top_result_sweep_configs).drop
        brute_configs.length =
      if is_automatic_search_mode models then top_result_sweep_configs else []) ∧
    (is_automatic_search_mode models = true ↔
      ∀ model ∈ models, model.model_config_parameters = []) := by
  refine ⟨List.take_left _ _, List.drop_left _ _, ?_⟩
  simp [is_automatic_search_mode, List.all_eq_true, List.isEmpty_iff]

/-- C9: the range normalizer maps the string "2:10:2" to the single-element
list ["2:10:2"] with success status; maps the mapping with start 5 and stop 2
to a validation-failure status (start exceeds stop) rather than raising; and
passes the explicit list [1, 2, 4] through unchanged with success status. -/
theorem c9_theorem :
    set_value (.str "2:10:2") = .success [.str "2:10:2"] ∧
    (∃ msg, set_value (.dict [("start", .num 5), ("stop", .num 2)]) = .failure msg) ∧
    set_value (.list [.num 1, .num 2, .num 4]) = .success [.num 1, .num 2, .num 4] :=
  ⟨by with_unfolding_all rfl, ⟨_, by with_unfolding_all rfl⟩, by with_unfolding_all rfl⟩

/-- C10: with at least MIN_CONSECUTIVE_TRIES measurements, the plateau window
`ms[-TRIES:]` contains the older endpoint `ms[-TRIES]` itself, so if the best
of the window is absent the older endpoint is absent too and the gain is 0 —
the "only the newer endpoint absent" −1 branch is unreachable; moreover for a
present older endpoint with positive throughput the gain is non-negative, so
the computation never returns −1. -/
theorem c10_theorem (ms : List (Option Measurement))
    (h : THROUGHPUT_MINIMUM_CONSECUTIVE_CONCURRENCY_TRIES ≤ ms.length) :
    (get_best_rcm ms = none →
      ms.getD (ms.length - THROUGHPUT_MINIMUM_CONSECUTIVE_CONCURRENCY_TRIES) none = none ∧
      calculate_gain ms = 0) ∧
    (∀ f : Measurement,
      ms.getD (ms.length - THROUGHPUT_MINIMUM_CONSECUTIVE_CONCURRENCY_TRIES) none = some f →
      0 < f.throughput → 0 ≤ calculate_gain ms) := by
  have hlt : ms.length - THROUGHPUT_MINIMUM_CONSECUTIVE_CONCURRENCY_TRIES < ms.length := by
    have : THROUGHPUT_MINIMUM_CONSECUTIVE_CONCURRENCY_TRIES = 4 := rfl
    omega
  have hwin : lastWindow ms =
      ms[ms.length - THROUGHPUT_MINIMUM_CONSECUTIVE_CONCURRENCY_TRIES] ::
        ms.drop (ms.length - THROUGHPUT_MINIMUM_CONSECUTIVE_CONCURRENCY_TRIES + 1) := by
    rw [lastWindow]
    exact List.drop_eq_getElem_cons hlt
  have hgetD : ms.getD (ms.length - THROUGHPUT_MINIMUM_CONSECUTIVE_CONCURRENCY_TRIES) none =
      ms[ms.length - THROUGHPUT_MINIMUM_CONSECUTIVE_CONCURRENCY_TRIES] := by
    simp [List.getD_eq_getElem?_getD, List.getElem?_eq_getElem hlt]
  have hmem : ms.getD (ms.length - THROUGHPUT_MINIMUM_CONSECUTIVE_CONCURRENCY_TRIES) none ∈
      lastWindow ms := by
    rw [hgetD, hwin]
    exact List.mem_cons_self _ _
  constructor
  · intro hbest
    have hnone : ms.getD (ms.length - THROUGHPUT_MINIMUM_CONSECUTIVE_CONCURRENCY_TRIES) none
        = none := by
      have hall : ∀ x ∈ lastWindow ms, x = none := by
        rw [← filterMap_id_eq_nil, ← maxRcm_eq_none]
        exact hbest
      exact hall _ hmem
    refine ⟨hnone, ?_⟩
    rw [calculate_gain, hnone, hbest]
    rfl
  · intro f hf hpos
    have hfmem : f ∈ (lastWindow ms).filterMap id :=
      List.mem_filterMap.mpr ⟨some f, hf ▸ hmem, rfl⟩
    cases hbest : get_best_rcm ms with
    | none =>
      have : (lastWindow ms).filterMap id = [] := maxRcm_eq_none.mp hbest
      rw [this] at hfmem
      cases hfmem
    | some b =>
      have hle : f.throughput ≤ b.throughput :=
        maxRcm_le (by simpa [get_best_rcm] using hbest) f hfmem
      rw [calculate_gain, hf, hbest]
      show 0 ≤ compareMeasurements f b
      rw [compareMeasurements]
      exact div_nonneg (by linarith) (le_of_lt hpos)

/-- C10 (witness): `c10_theorem` on the all-absent four-entry history — the
best of the window is absent, hence the gain is 0, not −1. -/
theorem c10_witness :
    calculate_gain ([none, none, none, none] : List (Option Measurement)) = 0 :=
  ((c10_theorem [none, none, none, none] (by norm_num
      [THROUGHPUT_MINIMUM_CONSECUTIVE_CONCURRENCY_TRIES])).1 rfl).2

end ModelAnalyzer
